import Mathlib

/-!
Shallow embedding of the fee-computation core of `rif-relay-server`:
the Conversions module (two versions present in the repository:
`src/src/Conversions.ts` using bignumber.js values end-to-end, and the
newer `src/unnamed/part_000` which routes results through ethers.js
integer-only `BigNumber.from`), and the GasEstimator module (whose
source file is absent from the snapshot; only its test file is present,
so it is modelled from the specification).

bignumber.js semantics captured here:
* a value is a finite decimal rational, NaN, +Infinity or -Infinity;
* multiplication of finite values is exact;
* division is rounded to `DECIMAL_PLACES` (default 20) decimal places
  with rounding mode ROUND_HALF_UP (half away from zero);
* `isNegative` is true for negative finite values and -Infinity,
  false for NaN; `isZero` is true only for finite zero.

ethers.js `BigNumber.from(s)` accepts only plain decimal integer
strings; bignumber.js `toString()` uses exponential notation for
magnitudes of at least 10^21 (default EXPONENTIAL_AT upper bound 20),
which `BigNumber.from` rejects.  Hence `parseToBigNumber` succeeds
exactly on finite integers of magnitude below 10^21 and is modelled
as an `Option`, `none` standing for a thrown error.
-/

namespace RifRelay

/-- A bignumber.js value: finite decimal rational, NaN or a signed infinity. -/
inductive BigNum where
  | fin (q : ℚ)
  | nan
  | inf
  | ninf
deriving DecidableEq

namespace BigNum

/-- bignumber.js `isNegative()`: sign is -1 (negative finite values, -Infinity). -/
def isNegative : BigNum → Bool
  | fin q => q < 0
  | nan => false
  | inf => false
  | ninf => true

/-- bignumber.js `isNaN()`. -/
def isNaN : BigNum → Bool
  | nan => true
  | _ => false

/-- bignumber.js `isFinite()`. -/
def isFinite : BigNum → Bool
  | fin _ => true
  | _ => false

/-- bignumber.js `isZero()`. -/
def isZero : BigNum → Bool
  | fin q => q = 0
  | _ => false

/-- ROUND_HALF_UP: round to the nearest integer, ties away from zero. -/
def roundHalfUp (q : ℚ) : ℤ :=
  if 0 ≤ q then ⌊q + 1 / 2⌋ else -⌊-q + 1 / 2⌋

/-- bignumber.js default DECIMAL_PLACES configuration value. -/
def DECIMAL_PLACES : ℕ := 20

/-- Quotient of two finite values, rounded half-up to `DECIMAL_PLACES`
decimal places, as bignumber.js division does. -/
def divRound (a b : ℚ) : ℚ :=
  (roundHalfUp (a / b * 10 ^ DECIMAL_PLACES) : ℚ) / 10 ^ DECIMAL_PLACES

/-- bignumber.js `multipliedBy` (exact on finite operands). -/
def mul : BigNum → BigNum → BigNum
  | nan, _ => nan
  | fin _, nan => nan
  | inf, nan => nan
  | ninf, nan => nan
  | fin a, fin b => fin (a * b)
  | inf, fin b => if b = 0 then nan else if 0 < b then inf else ninf
  | fin a, inf => if a = 0 then nan else if 0 < a then inf else ninf
  | ninf, fin b => if b = 0 then nan else if 0 < b then ninf else inf
  | fin a, ninf => if a = 0 then nan else if 0 < a then ninf else inf
  | inf, inf => inf
  | inf, ninf => ninf
  | ninf, inf => ninf
  | ninf, ninf => inf

/-- bignumber.js `dividedBy`, rounding finite quotients to
`DECIMAL_PLACES` decimal places. -/
def div : BigNum → BigNum → BigNum
  | nan, _ => nan
  | fin _, nan => nan
  | inf, nan => nan
  | ninf, nan => nan
  | fin a, fin b =>
      if b = 0 then (if a = 0 then nan else if 0 < a then inf else ninf)
      else fin (divRound a b)
  | fin _, inf => fin 0
  | fin _, ninf => fin 0
  | inf, fin b => if 0 ≤ b then inf else ninf
  | ninf, fin b => if 0 ≤ b then ninf else inf
  | inf, inf => nan
  | inf, ninf => nan
  | ninf, inf => nan
  | ninf, ninf => nan

/-- `isInvalidNumber` (private helper, identical in both source files):
true iff the value is negative, NaN or not finite. -/
def isInvalidNumber (value : BigNum) : Bool :=
  value.isNegative || value.isNaN || !value.isFinite

end BigNum

/-- Shared constant of both source files. -/
def RBTC_CHAIN_DECIMALS : ℕ := 18

namespace Conversions
/-! Embedding of `src/src/Conversions.ts` (bignumber.js throughout). -/

open BigNum

/-- `getPrecision(precision, base=10)`: `base ^ precision` (exact for a
natural exponent). -/
def getPrecision (precision : ℕ) (base : ℚ := 10) : ℚ :=
  base ^ precision

/-- `toPrecision({value, precision})`: multiply by `10 ^ |precision|`
when `precision ≥ 0`, divide by it when negative.  The precision is
an integer here, so the JavaScript negative-zero corner (`-0` selects
`dividedBy`) is not representable; it only differs on finite values
with more than `DECIMAL_PLACES` decimal places. -/
def toPrecision (value : BigNum) (precision : ℤ) : BigNum :=
  let precisionMultiplier := getPrecision precision.natAbs
  if precision < 0 then BigNum.div value (BigNum.fin precisionMultiplier)
  else BigNum.mul value (BigNum.fin precisionMultiplier)

/-- `toNativeWeiFrom({amount, decimals = 18, xRate})`: zero when the
amount or rate is absent or zero; otherwise downscale the amount by
`10 ^ decimals`, multiply by the rate and upscale by `10 ^ 18`.
`none` models an absent (`undefined`) field. -/
def toNativeWeiFrom (amount : Option BigNum) (decimals : ℕ := 18)
    (xRate : Option BigNum := none) : BigNum :=
  match amount, xRate with
  | some a, some r =>
      if a.isZero || r.isZero then BigNum.fin 0
      else
        let amountAsFraction := toPrecision a (-(decimals : ℤ))
        toPrecision (BigNum.mul amountAsFraction r) (RBTC_CHAIN_DECIMALS : ℤ)
  | _, _ => BigNum.fin 0

/-- `convertGasToToken(estimation, {decimals = 18, xRate}, gasPrice)`.
The `||` guard short-circuits, so an absent `xRate` (modelled `none`)
is only dereferenced — a thrown TypeError, modelled `none` — when the
estimation itself is valid.  On the valid path: rescale
`estimation * gasPrice` by `10 ^ (18 - decimals)` and divide by the rate. -/
def convertGasToToken (estimation : BigNum) (decimals : ℕ)
    (xRate : Option BigNum) (gasPrice : BigNum) : Option BigNum :=
  if isInvalidNumber estimation then some (BigNum.fin 0)
  else
    match xRate with
    | none => none
    | some r =>
        if isInvalidNumber r || isInvalidNumber gasPrice || r.isZero
        then some (BigNum.fin 0)
        else
          let precision : ℤ := (RBTC_CHAIN_DECIMALS : ℤ) - (decimals : ℤ)
          let total := toPrecision (BigNum.mul estimation gasPrice) precision
          some (BigNum.div total r)

/-- `convertGasToNative(estimation, gasPrice)`: zero when either operand
is invalid, else the exact product. -/
def convertGasToNative (estimation gasPrice : BigNum) : BigNum :=
  if isInvalidNumber estimation || isInvalidNumber gasPrice then BigNum.fin 0
  else BigNum.mul estimation gasPrice

end Conversions

namespace ConversionsV2
/-! Embedding of the newer conversions file `src/unnamed/part_000`
(bignumber.js arithmetic, but every `toPrecision` / final result is
converted to an ethers.js integer `BigNumber` via `parseToBigNumber`). -/

open BigNum

/-- `parseToBigNumber(value)`: `BigNumber.from(value.toString())`.
Succeeds (with the integer) exactly when the value is a finite integer
whose bignumber.js `toString()` is a plain decimal numeral, i.e. of
magnitude below `10 ^ 21`; every other input makes `BigNumber.from`
throw, modelled as `none`. -/
def parseToBigNumber : BigNum → Option ℤ
  | BigNum.fin q => if q.den = 1 ∧ q.num.natAbs < 10 ^ 21 then some q.num else none
  | _ => none

/-- `getPrecision(precision, base=10)`: `base ^ precision` computed in
bignumber.js, then parsed into an ethers integer. -/
def getPrecision (precision : ℕ) (base : ℚ := 10) : Option ℤ :=
  parseToBigNumber (BigNum.fin (base ^ precision))

/-- `toPrecision({value, precision = 0})`: scale in bignumber.js
arithmetic exactly as the older file does, then parse the result into
an ethers integer (throwing — `none` — on fractional or huge results). -/
def toPrecision (value : BigNum) (precision : ℤ) : Option ℤ :=
  match getPrecision precision.natAbs with
  | none => none
  | some m =>
      let precisionMultiplier : BigNum := BigNum.fin (m : ℚ)
      parseToBigNumber
        (if precision < 0 then BigNum.div value precisionMultiplier
         else BigNum.mul value precisionMultiplier)

/-- `toNativeWeiFrom({amount, decimals = 18, xRate})` of the newer file:
absent amount or rate defaults to zero; zero amount or rate yields
`constants.Zero`; otherwise the downscaled amount is forced to an
ethers integer, multiplied by the rate, rounded to an integer by
`toFixed(0)` and upscaled by `10 ^ 18`.  A NaN or infinite product
makes `toFixed(0)` produce a string `BigNumber.from` rejects. -/
def toNativeWeiFrom (amount : Option BigNum) (decimals : ℕ := 18)
    (xRate : Option BigNum := none) : Option ℤ :=
  let bigAmount := amount.getD (BigNum.fin 0)
  let bigxRate := xRate.getD (BigNum.fin 0)
  if bigAmount.isZero || bigxRate.isZero then some 0
  else
    match toPrecision bigAmount (-(decimals : ℤ)) with
    | none => none
    | some amountAsFraction =>
        match BigNum.mul (BigNum.fin (amountAsFraction : ℚ)) bigxRate with
        | BigNum.fin p =>
            toPrecision (BigNum.fin (roundHalfUp p : ℚ)) (RBTC_CHAIN_DECIMALS : ℤ)
        | _ => none

/-- `convertGasToToken(estimation, {decimals = 18, xRate}, gasPrice)` of
the newer file: an absent `xRate` defaults to zero before validation;
degenerate inputs yield `constants.Zero`; otherwise rescale
`estimation * gasPrice` by `10 ^ (18 - decimals)`, divide by the rate
and round to an integer with `toFixed(0)`. -/
def convertGasToToken (estimation : BigNum) (decimals : ℕ)
    (xRate : Option BigNum) (gasPrice : BigNum) : Option ℤ :=
  let bigRate := xRate.getD (BigNum.fin 0)
  if isInvalidNumber estimation || isInvalidNumber bigRate ||
      isInvalidNumber gasPrice || bigRate.isZero
  then some 0
  else
    let precision : ℤ := (RBTC_CHAIN_DECIMALS : ℤ) - (decimals : ℤ)
    match toPrecision (BigNum.mul estimation gasPrice) precision with
    | none => none
    | some total =>
        match BigNum.div (BigNum.fin (total : ℚ)) bigRate with
        | BigNum.fin q => some (roundHalfUp q)
        | _ => none

/-- `convertGasToNative(estimation, gasPrice)` of the newer file: zero
when either operand is invalid, else the exact product parsed into an
ethers integer. -/
def convertGasToNative (estimation gasPrice : BigNum) : Option ℤ :=
  if isInvalidNumber estimation || isInvalidNumber gasPrice then some 0
  else parseToBigNumber (BigNum.mul estimation gasPrice)

end ConversionsV2

namespace GasEstimator
/-! The file `src/GasEstimator.ts` of the repository is not part of the source
snapshot; only its test file is.  The definitions below are therefore
modelled from the specification (§4.2 of the spec), with the two
calibration constants left as parameters and the subsidy floor fixed
at the documented value 12000.  Gas quantities are bignumber.js
finite values, represented as rationals. -/

/-- Modelled from the spec: a relay request (caller-specified inner-call
gas limit, relay-data gas price, optional caller-specified `tokenGas`)
or a deploy request (deterministic smart-wallet `index`, gas price,
optional `tokenGas`) — a tagged union on the request discriminant. -/
inductive Req where
  | relay (gas : ℚ) (gasPrice : ℚ) (tokenGas : Option ℚ)
  | deploy (index : ℕ) (gasPrice : ℚ) (tokenGas : Option ℚ)

/-- The optional caller-specified `tokenGas` carried by either request kind. -/
def Req.tokenGas : Req → Option ℚ
  | .relay _ _ tg => tg
  | .deploy _ _ tg => tg

/-- Modelled from the spec: the Contract Interactor collaborator,
abstracted as the outcomes of its simulation capabilities (addresses
are natural numbers). `tokenTransferGas` is the simulated ERC20
transfer gas as a function of the sender address; `relayCallGas` and
`deployCallGas` are the relay-hub simulations; `innerCallGas` is the
direct inner-call estimate used by the linear-fit strategy. -/
structure ContractInteractor where
  getSmartWalletAddress : ℕ → ℕ
  tokenTransferGas : ℕ → ℚ
  knownSender : ℕ
  relayCallGas : ℚ
  deployCallGas : ℚ
  innerCallGas : ℚ

/-- Modelled from the spec: the fixed subsidy floor returned when a
simulated token transfer reports zero gas (12000, also pinned by the
test file of the repository). -/
def SUBSIDY : ℚ := 12000

/-- Modelled from the spec: `applySafetyMargin` /
`applyGasCorrectionFactor` — multiply the estimate by the fixed
correction factor `F`. -/
def applyGasCorrectionFactor (F : ℚ) (estimate : ℚ) : ℚ :=
  estimate * F

/-- Modelled from the spec: `correctForInternalCallOverhead` /
`applyInternalCorrection` — subtract the fixed internal-call
correction constant `C` when the raw estimate exceeds it, otherwise
leave the raw estimate unchanged. -/
def applyInternalCorrection (C : ℚ) (rawEstimate : ℚ) : ℚ :=
  if C < rawEstimate then rawEstimate - C else rawEstimate

/-- Modelled from the spec: the sender of the simulated fee-collection
token transfer — the known account for a relay request, the smart
predicted smart-wallet address (looked up by `index`) for a deploy request. -/
def transferSender (I : ContractInteractor) : Req → ℕ
  | .relay _ _ _ => I.knownSender
  | .deploy idx _ _ => I.getSmartWalletAddress idx

/-- Modelled from the spec: `estimateTokenTransferGas` /
`estimateGasTokenTransfer`.  Returns the gas estimate together with a
flag recording whether the address-lookup capability of the Contract
Interactor (`getSmartWalletAddress`) was invoked.  Case order per the
spec: an explicit `tokenGas` is trusted and only the safety margin is
applied; otherwise the transfer is simulated (deploy requests needing
the address lookup), a zero simulation yields the subsidy floor, and a
non-zero simulation is corrected for internal-call overhead with no
safety margin. -/
def estimateGasTokenTransfer (F C : ℚ) (I : ContractInteractor)
    (req : Req) : ℚ × Bool :=
  match req.tokenGas with
  | some tokenGas => (applyGasCorrectionFactor F tokenGas, false)
  | none =>
      let usedLookup := match req with
        | .relay _ _ _ => false
        | .deploy _ _ _ => true
      let simulated := I.tokenTransferGas (transferSender I req)
      if simulated = 0 then (SUBSIDY, usedLookup)
      else (applyInternalCorrection C simulated, usedLookup)

/-- Modelled from the spec: `estimateStandardGas` /
`standardGasEstimation` — simulate the relay-hub call (`relayCall` for
a relay request, `deployCall` for a deploy request), apply the safety
margin and add the already-computed `tokenGas`. -/
def standardGasEstimation (F : ℚ) (I : ContractInteractor)
    (req : Req) (tokenGas : ℚ) : ℚ :=
  let baseGas := match req with
    | .relay _ _ _ => I.relayCallGas
    | .deploy _ _ _ => I.deployCallGas
  tokenGas + applyGasCorrectionFactor F baseGas

/-- Modelled from the spec: `estimateLinearFitGas` /
`linearFitGasEstimation` — valid only for relay requests: correct the
direct inner-call estimate for internal-call overhead and combine it
with `tokenGas` through the pre-calibrated linear model `fit`
(`estimateMaxPossibleRelayCallWithLinearFit`, an external library
function, kept abstract); reject every deploy request with the fixed
message. -/
def linearFitGasEstimation (C : ℚ) (fit : ℚ → ℚ → ℚ)
    (I : ContractInteractor) (req : Req) (tokenGas : ℚ) :
    Except String ℚ :=
  match req with
  | .deploy _ _ _ =>
      Except.error "LinearFit estimation not implemented for deployments"
  | .relay _ _ _ =>
      Except.ok (fit (applyInternalCorrection C I.innerCallGas) tokenGas)

/-- Modelled from the spec: `estimateRelayTransactionGas` /
`estimateGasRelayTransaction` — compute the token-transfer gas, then
dispatch to the standard estimation strategy. -/
def estimateGasRelayTransaction (F C : ℚ) (I : ContractInteractor)
    (req : Req) : ℚ :=
  let tokenGas := (estimateGasTokenTransfer F C I req).1
  standardGasEstimation F I req tokenGas

end GasEstimator

/-! Theorems settling the claims. -/

/-- C1: for every gas estimation, exchange rate and gas price operand,
`convertGasToToken` (both versions) returns exactly zero whenever any
operand is negative, NaN or infinite or the exchange rate is zero, and
`convertGasToNative` (both versions) returns exactly zero whenever the
estimation or the gas price is negative, NaN or infinite; none of them
raises an error on such degenerate inputs (the result is always
`some` zero, never the thrown-error value `none`). -/
theorem C1_degenerate_operands_yield_zero :
    (∀ (est r price : BigNum) (dec : ℕ),
        (BigNum.isInvalidNumber est = true ∨ BigNum.isInvalidNumber r = true ∨
         BigNum.isInvalidNumber price = true ∨ r.isZero = true) →
        Conversions.convertGasToToken est dec (some r) price = some (BigNum.fin 0) ∧
        ConversionsV2.convertGasToToken est dec (some r) price = some 0) ∧
    (∀ est price : BigNum,
        (BigNum.isInvalidNumber est = true ∨ BigNum.isInvalidNumber price = true) →
        Conversions.convertGasToNative est price = BigNum.fin 0 ∧
        ConversionsV2.convertGasToNative est price = some 0) := by
  constructor
  · intro est r price dec h
    constructor
    · unfold Conversions.convertGasToToken
      rcases h with h | h | h | h <;> simp [h]
    · unfold ConversionsV2.convertGasToToken
      rcases h with h | h | h | h <;> simp [h]
  · intro est price h
    rcases h with h | h <;>
      simp [Conversions.convertGasToNative, ConversionsV2.convertGasToNative, h]

/-- Witness for C1 at concrete degenerate inputs: a NaN estimation with
rate 1 and price 1, and separately an explicitly negative estimation. -/
theorem C1_degenerate_operands_yield_zero_witness :
    Conversions.convertGasToToken BigNum.nan 18 (some (BigNum.fin 1)) (BigNum.fin 1)
      = some (BigNum.fin 0) ∧
    ConversionsV2.convertGasToToken BigNum.nan 18 (some (BigNum.fin 1)) (BigNum.fin 1)
      = some 0 ∧
    Conversions.convertGasToNative (BigNum.fin (-5)) (BigNum.fin 1) = BigNum.fin 0 ∧
    ConversionsV2.convertGasToNative (BigNum.fin (-5)) (BigNum.fin 1) = some 0 := by
  refine ⟨(C1_degenerate_operands_yield_zero.1 _ _ _ _ (Or.inl ?_)).1,
          (C1_degenerate_operands_yield_zero.1 _ _ _ _ (Or.inl ?_)).2,
          (C1_degenerate_operands_yield_zero.2 _ _ (Or.inl ?_)).1,
          (C1_degenerate_operands_yield_zero.2 _ _ (Or.inl ?_)).2⟩ <;>
    simp [BigNum.isInvalidNumber, BigNum.isNegative, BigNum.isNaN, BigNum.isFinite]

/-- C10: the newer `convertGasToToken` (part_000) returns exactly zero
when the `xRate` field of the token is absent, for every estimation and gas
price, behaving exactly as if the rate were zero; the older
implementation instead throws (dereferences the absent rate) whenever
the estimation itself is valid. -/
theorem C10_missing_rate_treated_as_zero :
    (∀ (est price : BigNum) (dec : ℕ),
        ConversionsV2.convertGasToToken est dec none price = some 0 ∧
        ConversionsV2.convertGasToToken est dec none price =
          ConversionsV2.convertGasToToken est dec (some (BigNum.fin 0)) price) ∧
    (∀ (est price : BigNum) (dec : ℕ),
        BigNum.isInvalidNumber est = false →
        Conversions.convertGasToToken est dec none price = none) := by
  constructor
  · intro est price dec
    constructor <;>
      simp [ConversionsV2.convertGasToToken, BigNum.isZero]
  · intro est price dec h
    simp [Conversions.convertGasToToken, h]

/-- Witness for C10 at a concrete valid estimation: the older version
throws on a missing rate while the newer one returns zero. -/
theorem C10_missing_rate_treated_as_zero_witness :
    ConversionsV2.convertGasToToken (BigNum.fin 3) 18 none (BigNum.fin 2) = some 0 ∧
    Conversions.convertGasToToken (BigNum.fin 3) 18 none (BigNum.fin 2) = none := by
  refine ⟨(C10_missing_rate_treated_as_zero.1 _ _ _).1,
          C10_missing_rate_treated_as_zero.2 _ _ _ ?_⟩
  simp [BigNum.isInvalidNumber, BigNum.isNegative, BigNum.isNaN, BigNum.isFinite]

/-- C2: for every request without an explicit `tokenGas`,
`estimateGasTokenTransfer` returns the fixed subsidy floor 12000
exactly when the simulated token-transfer gas is zero, and returns
`applyInternalCorrection(simulated)` — with no safety-margin factor
anywhere in the result — when the simulated gas is non-zero, for relay
and deploy requests alike. -/
theorem C2_token_transfer_no_explicit_tokenGas :
    ∀ (F C : ℚ) (I : GasEstimator.ContractInteractor) (g gp dgp : ℚ) (idx : ℕ),
      ((I.tokenTransferGas I.knownSender = 0 →
          (GasEstimator.estimateGasTokenTransfer F C I (.relay g gp none)).1 = 12000) ∧
       (I.tokenTransferGas I.knownSender ≠ 0 →
          (GasEstimator.estimateGasTokenTransfer F C I (.relay g gp none)).1 =
            GasEstimator.applyInternalCorrection C (I.tokenTransferGas I.knownSender))) ∧
      ((I.tokenTransferGas (I.getSmartWalletAddress idx) = 0 →
          (GasEstimator.estimateGasTokenTransfer F C I (.deploy idx dgp none)).1 = 12000) ∧
       (I.tokenTransferGas (I.getSmartWalletAddress idx) ≠ 0 →
          (GasEstimator.estimateGasTokenTransfer F C I (.deploy idx dgp none)).1 =
            GasEstimator.applyInternalCorrection C
              (I.tokenTransferGas (I.getSmartWalletAddress idx)))) := by
  intro F C I g gp dgp idx
  refine ⟨⟨fun h => ?_, fun h => ?_⟩, ⟨fun h => ?_, fun h => ?_⟩⟩ <;>
    simp [GasEstimator.estimateGasTokenTransfer, GasEstimator.Req.tokenGas,
      GasEstimator.transferSender, GasEstimator.SUBSIDY, h]

/-- Witness for C2: a concrete interactor whose token-transfer
simulation reports zero gas yields the 12000 subsidy floor, and one
reporting 24554 yields the internally corrected value. -/
theorem C2_token_transfer_no_explicit_tokenGas_witness :
    (GasEstimator.estimateGasTokenTransfer 2 20000
        ⟨fun i => i, fun _ => 0, 0, 82907, 147246, 16559⟩
        (.relay 100 60000000 none)).1 = 12000 ∧
    (GasEstimator.estimateGasTokenTransfer 2 20000
        ⟨fun i => i, fun _ => 24554, 0, 82907, 147246, 16559⟩
        (.relay 100 60000000 none)).1 =
      GasEstimator.applyInternalCorrection 20000 24554 := by
  exact ⟨(C2_token_transfer_no_explicit_tokenGas 2 20000 _ 100 60000000 0 0).1.1 rfl,
         (C2_token_transfer_no_explicit_tokenGas 2 20000 _ 100 60000000 0 0).1.2
           (by norm_num)⟩

/-- C3: for every request carrying an explicit `tokenGas`,
`estimateGasTokenTransfer` returns `applyGasCorrectionFactor(tokenGas)`
with no internal-overhead correction, and the smart-wallet address-lookup
capability of the Contract Interactor is not invoked (the invocation
flag of the embedding is `false`). -/
theorem C3_explicit_tokenGas_trusted :
    ∀ (F C : ℚ) (I : GasEstimator.ContractInteractor)
      (g gp dgp tg : ℚ) (idx : ℕ),
      GasEstimator.estimateGasTokenTransfer F C I (.relay g gp (some tg)) =
        (GasEstimator.applyGasCorrectionFactor F tg, false) ∧
      GasEstimator.estimateGasTokenTransfer F C I (.deploy idx dgp (some tg)) =
        (GasEstimator.applyGasCorrectionFactor F tg, false) := by
  intro F C I g gp dgp tg idx
  exact ⟨rfl, rfl⟩

/-- C4: `standardGasEstimation` dispatches on the request discriminant
(the `relayCall` simulation for a relay request, the `deployCall`
simulation for a deploy request) and returns exactly
`tokenGas + applyGasCorrectionFactor(simulatedBaseGas)`. -/
theorem C4_standard_estimation_dispatch :
    ∀ (F : ℚ) (I : GasEstimator.ContractInteractor)
      (g gp dgp tokenGas : ℚ) (tg dtg : Option ℚ) (idx : ℕ),
      GasEstimator.standardGasEstimation F I (.relay g gp tg) tokenGas =
        tokenGas + GasEstimator.applyGasCorrectionFactor F I.relayCallGas ∧
      GasEstimator.standardGasEstimation F I (.deploy idx dgp dtg) tokenGas =
        tokenGas + GasEstimator.applyGasCorrectionFactor F I.deployCallGas := by
  intro F I g gp dgp tokenGas tg dtg idx
  exact ⟨rfl, rfl⟩

/-- C7: `linearFitGasEstimation` rejects every deploy-shaped request,
regardless of its field values, with exactly the message
"LinearFit estimation not implemented for deployments", and for every
relay request returns the linear-fit combination of
`applyInternalCorrection(inner-call estimate)` and `tokenGas`. -/
theorem C7_linear_fit_rejects_deploys :
    ∀ (C : ℚ) (fit : ℚ → ℚ → ℚ) (I : GasEstimator.ContractInteractor)
      (g gp dgp tokenGas : ℚ) (tg dtg : Option ℚ) (idx : ℕ),
      GasEstimator.linearFitGasEstimation C fit I (.deploy idx dgp dtg) tokenGas =
        Except.error "LinearFit estimation not implemented for deployments" ∧
      GasEstimator.linearFitGasEstimation C fit I (.relay g gp tg) tokenGas =
        Except.ok (fit (GasEstimator.applyInternalCorrection C I.innerCallGas) tokenGas) := by
  intro C fit I g gp dgp tokenGas tg dtg idx
  exact ⟨rfl, rfl⟩

/-- C8: `applyInternalCorrection C x` equals `x - C` when `x > C` and
equals `x` unchanged otherwise — in particular no correction is applied
at the boundary `x = C` — and the result is never negative for a
non-negative raw estimate. -/
theorem C8_internal_correction :
    ∀ C x : ℚ,
      (C < x → GasEstimator.applyInternalCorrection C x = x - C) ∧
      (x ≤ C → GasEstimator.applyInternalCorrection C x = x) ∧
      GasEstimator.applyInternalCorrection C C = C ∧
      (0 ≤ x → 0 ≤ GasEstimator.applyInternalCorrection C x) := by
  intro C x
  unfold GasEstimator.applyInternalCorrection
  refine ⟨fun h => if_pos h, fun h => if_neg (not_lt.mpr h), if_neg (lt_irrefl C), fun hx => ?_⟩
  split
  · linarith
  · exact hx

/-- Witness for C8 at the concrete values of the test file: correction
applied at 25000, not applied at 15000, with constant 20000. -/
theorem C8_internal_correction_witness :
    GasEstimator.applyInternalCorrection 20000 25000 = 25000 - 20000 ∧
    GasEstimator.applyInternalCorrection 20000 15000 = 15000 ∧
    GasEstimator.applyInternalCorrection 20000 20000 = 20000 ∧
    0 ≤ GasEstimator.applyInternalCorrection 20000 25000 := by
  exact ⟨(C8_internal_correction 20000 25000).1 (by norm_num),
         (C8_internal_correction 20000 15000).2.1 (by norm_num),
         (C8_internal_correction 20000 20000).2.2.1,
         (C8_internal_correction 20000 25000).2.2.2 (by norm_num)⟩

/-- C9: for all non-negative estimates `x`, `applyGasCorrectionFactor`
returns exactly `x * F` for the fixed correction factor `F > 1`; in
particular it strictly inflates every positive estimate. -/
theorem C9_gas_correction_factor :
    ∀ F x : ℚ, 1 < F → 0 ≤ x →
      GasEstimator.applyGasCorrectionFactor F x = x * F ∧
      (0 < x → x < GasEstimator.applyGasCorrectionFactor F x) := by
  intro F x hF _hx
  refine ⟨rfl, fun hx => ?_⟩
  unfold GasEstimator.applyGasCorrectionFactor
  nlinarith

/-- Witness for C9 at `F = 3/2`, `x = 15000`. -/
theorem C9_gas_correction_factor_witness :
    GasEstimator.applyGasCorrectionFactor (3 / 2) 15000 = 15000 * (3 / 2) ∧
    (15000 : ℚ) < GasEstimator.applyGasCorrectionFactor (3 / 2) 15000 := by
  have h := C9_gas_correction_factor (3 / 2) 15000 (by norm_num) (by norm_num)
  exact ⟨h.1, h.2 (by norm_num)⟩

/-- Half-up rounding moves a non-negative rational by at most one half. -/
theorem roundHalfUp_sub_le (q : ℚ) (h : 0 ≤ q) :
    |(BigNum.roundHalfUp q : ℚ) - q| ≤ 1 / 2 := by
  unfold BigNum.roundHalfUp
  rw [if_pos h]
  have h1 : (↑⌊q + 1 / 2⌋ : ℚ) ≤ q + 1 / 2 := Int.floor_le _
  have h2 : q + 1 / 2 < ↑⌊q + 1 / 2⌋ + 1 := Int.lt_floor_add_one _
  rw [abs_le]
  constructor <;> linarith

/-- Half-up rounding fixes integers. -/
theorem roundHalfUp_intCast (n : ℤ) : BigNum.roundHalfUp (n : ℚ) = n := by
  unfold BigNum.roundHalfUp
  by_cases h : (0 : ℚ) ≤ (n : ℚ)
  · rw [if_pos h, Int.floor_int_add]
    norm_num
  · rw [if_neg h]
    have : -(n : ℚ) + 1 / 2 = ((-n : ℤ) : ℚ) + 1 / 2 := by push_cast; ring
    rw [this, Int.floor_int_add]
    norm_num

/-- bignumber.js division deviates from the exact quotient by at most
half a unit in the last (twentieth) retained decimal place, for
non-negative quotients. -/
theorem divRound_error (a b : ℚ) (h : 0 ≤ a / b) :
    |BigNum.divRound a b - a / b| ≤ 1 / 2 / 10 ^ 20 := by
  unfold BigNum.divRound BigNum.DECIMAL_PLACES
  have h20 : (0 : ℚ) < 10 ^ 20 := by positivity
  have hq0 : 0 ≤ a / b * 10 ^ 20 := mul_nonneg h h20.le
  have hb := roundHalfUp_sub_le (a / b * 10 ^ 20) hq0
  have heq :
      (↑(BigNum.roundHalfUp (a / b * 10 ^ 20)) : ℚ) / 10 ^ 20 - a / b =
        ((↑(BigNum.roundHalfUp (a / b * 10 ^ 20)) : ℚ) - a / b * 10 ^ 20) / 10 ^ 20 := by
    field_simp
    ring
  rw [heq, abs_div, abs_of_pos h20]
  exact (div_le_div_iff_of_pos_right h20).mpr hb

/-- bignumber.js division is exact when the quotient needs at most
twenty decimal places. -/
theorem divRound_exact (a b : ℚ) (n : ℤ) (h : a / b * 10 ^ 20 = (n : ℚ)) :
    BigNum.divRound a b = a / b := by
  unfold BigNum.divRound BigNum.DECIMAL_PLACES
  rw [h, roundHalfUp_intCast, ← h]
  have h20 : (10 : ℚ) ^ 20 ≠ 0 := by positivity
  exact mul_div_cancel_right₀ _ h20

/-- Half-up rounding preserves non-negativity. -/
theorem roundHalfUp_nonneg (q : ℚ) (h : 0 ≤ q) : 0 ≤ BigNum.roundHalfUp q := by
  unfold BigNum.roundHalfUp
  rw [if_pos h]
  exact Int.floor_nonneg.mpr (by linarith)

/-- Dividing an integer by `10 ^ dec` with `dec ≤ 20` stays within the
twenty retained decimal places, so bignumber.js division is exact. -/
theorem divRound_int_pow (a : ℤ) (dec : ℕ) (hdec : dec ≤ 20) :
    BigNum.divRound (a : ℚ) (10 ^ dec) = (a : ℚ) / 10 ^ dec := by
  apply divRound_exact _ _ (a * 10 ^ (20 - dec))
  have hk : ((10 : ℚ) ^ dec) ≠ 0 := by positivity
  have hsplit : (10 : ℚ) ^ (20 : ℕ) = 10 ^ dec * 10 ^ (20 - dec) := by
    rw [← pow_add]
    congr 1
    omega
  rw [hsplit, ← mul_assoc, div_mul_cancel₀ _ hk]
  push_cast
  ring

/-- The older `toPrecision` downscaling an integer by up to twenty
decimal places is exact. -/
theorem toPrecision_int_downscale (a : ℤ) (dec : ℕ) (hdec : dec ≤ 20) :
    Conversions.toPrecision (BigNum.fin (a : ℚ)) (-(dec : ℤ))
      = BigNum.fin ((a : ℚ) / 10 ^ dec) := by
  rcases Nat.eq_zero_or_pos dec with h0 | hpos
  · subst h0
    simp [Conversions.toPrecision, Conversions.getPrecision, BigNum.mul]
  · have hlt : -(dec : ℤ) < 0 := by omega
    have hk : ((10 : ℚ) ^ dec) ≠ 0 := by positivity
    simp [Conversions.toPrecision, Conversions.getPrecision, BigNum.div, hlt, hk,
      divRound_int_pow a dec hdec]

/-- The older `toPrecision` downscaling a non-negative value yields a
non-negative finite value (even when division rounds). -/
theorem toPrecision_down_nonneg (a : ℚ) (dec : ℕ) (ha : 0 ≤ a) :
    ∃ q : ℚ, Conversions.toPrecision (BigNum.fin a) (-(dec : ℤ)) = BigNum.fin q ∧
      0 ≤ q := by
  rcases Nat.eq_zero_or_pos dec with h0 | hpos
  · subst h0
    refine ⟨a, ?_, ha⟩
    simp [Conversions.toPrecision, Conversions.getPrecision, BigNum.mul]
  · have hlt : -(dec : ℤ) < 0 := by omega
    have hk : ((10 : ℚ) ^ dec) ≠ 0 := by positivity
    refine ⟨BigNum.divRound a (10 ^ dec), ?_, ?_⟩
    · simp [Conversions.toPrecision, Conversions.getPrecision, BigNum.div, hlt, hk]
    · unfold BigNum.divRound BigNum.DECIMAL_PLACES
      have hq : (0 : ℚ) ≤ a / 10 ^ dec * 10 ^ 20 := by positivity
      exact div_nonneg (by exact_mod_cast roundHalfUp_nonneg _ hq) (by positivity)

/-- `parseToBigNumber` succeeds on integers below the exponential-
notation threshold. -/
theorem parseToBigNumber_int (n : ℤ) (h : n.natAbs < 10 ^ 21) :
    ConversionsV2.parseToBigNumber (BigNum.fin (n : ℚ)) = some n := by
  have hd : ((n : ℚ)).den = 1 := Rat.den_intCast n
  have hn : ((n : ℚ)).num = n := Rat.num_intCast n
  simp [ConversionsV2.parseToBigNumber, hd, hn]
  omega

/-- The older `toPrecision` upscales by the eighteen native decimals
exactly. -/
theorem toPrecision_up18 (v : ℚ) :
    Conversions.toPrecision (BigNum.fin v) ((RBTC_CHAIN_DECIMALS : ℕ) : ℤ)
      = BigNum.fin (v * 10 ^ 18) := by
  norm_num [Conversions.toPrecision, Conversions.getPrecision, BigNum.mul,
    RBTC_CHAIN_DECIMALS]

/-- `parseToBigNumber` throws on any non-integral finite value. -/
theorem parseToBigNumber_nonint (q : ℚ) (h : q.den ≠ 1) :
    ConversionsV2.parseToBigNumber (BigNum.fin q) = none := by
  simp [ConversionsV2.parseToBigNumber, h]

/-- C5: the claim that `toNativeWeiFrom` preserves full decimal
precision at every intermediate step, truncating only at the final
output, fails on the newer implementation: for amount 15, one decimal,
rate 1 the exact pipeline value is `15 / 10 ^ 1 * 1 * 10 ^ 18`, the
integer 1500000000000000000, yet the implementation throws (the
downscaled amount 1.5 is forced through the integer-only ethers
`BigNumber.from` before the final upscale). -/
theorem C5_precision_counterexample :
    ConversionsV2.toNativeWeiFrom (some (BigNum.fin 15)) 1 (some (BigNum.fin 1)) = none ∧
    (15 : ℚ) / 10 ^ 1 * 1 * 10 ^ 18 = ((1500000000000000000 : ℤ) : ℚ) := by
  constructor
  · norm_num [ConversionsV2.toNativeWeiFrom, ConversionsV2.toPrecision,
      ConversionsV2.getPrecision, ConversionsV2.parseToBigNumber, BigNum.isZero,
      BigNum.div, BigNum.mul, BigNum.divRound, BigNum.roundHalfUp, BigNum.DECIMAL_PLACES]
  · norm_num

/-- C5 (amended): both implementations return zero when the amount or
the rate is absent or zero.  The older implementation computes the
full-precision pipeline `amount / 10 ^ decimals * rate * 10 ^ 18`
exactly for every integer amount when `decimals ≤ 20`, and its result
is never negative for non-negative finite inputs.  The newer
implementation does not preserve intermediate precision: it forces the
downscaled amount to an integer mid-pipeline and throws whenever that
value is not an integer. -/
theorem C5_toNativeWeiFrom_amended :
    (∀ (dec : ℕ) (xr : Option BigNum),
        Conversions.toNativeWeiFrom none dec xr = BigNum.fin 0 ∧
        ConversionsV2.toNativeWeiFrom none dec xr = some 0) ∧
    (∀ (a : BigNum) (dec : ℕ),
        Conversions.toNativeWeiFrom (some a) dec none = BigNum.fin 0 ∧
        ConversionsV2.toNativeWeiFrom (some a) dec none = some 0) ∧
    (∀ (a r : BigNum) (dec : ℕ), a.isZero = true ∨ r.isZero = true →
        Conversions.toNativeWeiFrom (some a) dec (some r) = BigNum.fin 0 ∧
        ConversionsV2.toNativeWeiFrom (some a) dec (some r) = some 0) ∧
    (∀ (a : ℤ) (r : ℚ) (dec : ℕ), dec ≤ 20 →
        Conversions.toNativeWeiFrom (some (BigNum.fin (a : ℚ))) dec (some (BigNum.fin r))
          = BigNum.fin ((a : ℚ) / 10 ^ dec * r * 10 ^ 18)) ∧
    (∀ (a r : ℚ) (dec : ℕ), 0 ≤ a → 0 ≤ r →
        ∃ q : ℚ,
          Conversions.toNativeWeiFrom (some (BigNum.fin a)) dec (some (BigNum.fin r))
            = BigNum.fin q ∧ 0 ≤ q) ∧
    (∀ (a : ℤ) (r : ℚ) (dec : ℕ), dec ≤ 20 → ¬((10 : ℤ) ^ dec ∣ a) → r ≠ 0 →
        ConversionsV2.toNativeWeiFrom (some (BigNum.fin (a : ℚ))) dec (some (BigNum.fin r))
          = none) := by
  refine ⟨?_, ?_, ?_, ?_, ?_, ?_⟩
  · intro dec xr
    cases xr <;>
      simp [Conversions.toNativeWeiFrom, ConversionsV2.toNativeWeiFrom, BigNum.isZero]
  · intro a dec
    constructor
    · cases a <;> simp [Conversions.toNativeWeiFrom]
    · simp [ConversionsV2.toNativeWeiFrom, BigNum.isZero]
  · intro a r dec h
    constructor
    · rcases h with h | h <;> simp [Conversions.toNativeWeiFrom, h]
    · rcases h with h | h <;> simp [ConversionsV2.toNativeWeiFrom, h]
  · intro a r dec hdec
    by_cases ha : (a : ℚ) = 0
    · simp [Conversions.toNativeWeiFrom, BigNum.isZero, ha]
    · by_cases hr : r = 0
      · simp [Conversions.toNativeWeiFrom, BigNum.isZero, hr]
      · have h1 := toPrecision_int_downscale a dec hdec
        simp only [Conversions.toNativeWeiFrom, h1]
        simp [BigNum.isZero, ha, hr, BigNum.mul, toPrecision_up18]
  · intro a r dec ha hr
    by_cases ha0 : a = 0
    · exact ⟨0, by simp [Conversions.toNativeWeiFrom, BigNum.isZero, ha0], le_refl 0⟩
    · by_cases hr0 : r = 0
      · exact ⟨0, by simp [Conversions.toNativeWeiFrom, BigNum.isZero, hr0], le_refl 0⟩
      · obtain ⟨q, hq, hq0⟩ := toPrecision_down_nonneg a dec ha
        refine ⟨q * r * 10 ^ 18, ?_, by positivity⟩
        simp only [Conversions.toNativeWeiFrom, hq]
        simp [BigNum.isZero, ha0, hr0, BigNum.mul, toPrecision_up18]
  · intro a r dec hdec hdvd hr
    have ha0 : a ≠ 0 := fun h => hdvd (h ▸ dvd_zero _)
    have haq : (a : ℚ) ≠ 0 := Int.cast_ne_zero.mpr ha0
    rcases Nat.eq_zero_or_pos dec with h0 | hpos
    · exact absurd (h0 ▸ one_dvd a : (10 : ℤ) ^ dec ∣ a) hdvd
    · have hlt : -(dec : ℤ) < 0 := by omega
      have hk : ((10 : ℚ) ^ dec) ≠ 0 := by positivity
      have hnat : (-(dec : ℤ)).natAbs = dec := by omega
      have hparse10 : ConversionsV2.parseToBigNumber (BigNum.fin ((10 : ℚ) ^ dec))
          = some ((10 : ℤ) ^ dec) := by
        have hcast : ((10 : ℚ) ^ dec) = (((10 : ℤ) ^ dec : ℤ) : ℚ) := by push_cast; ring
        rw [hcast]
        apply parseToBigNumber_int
        have h1 : ((10 : ℤ) ^ dec).natAbs = 10 ^ dec := by
          norm_num [Int.natAbs_pow]
        rw [h1]
        calc (10 : ℕ) ^ dec ≤ 10 ^ 20 := Nat.pow_le_pow_right (by norm_num) hdec
          _ < 10 ^ 21 := by norm_num
      have hden : ((a : ℚ) / 10 ^ dec).den ≠ 1 := by
        intro hc
        apply hdvd
        have h10 : ((10 : ℤ) ^ dec) ≠ 0 := by positivity
        have hiff := Rat.den_div_intCast_eq_one_iff a ((10 : ℤ) ^ dec) h10
        apply hiff.mp
        convert hc using 3
        push_cast
        ring
      have hexact := divRound_int_pow a dec hdec
      have hdivq : BigNum.div (BigNum.fin (a : ℚ)) (BigNum.fin (((10 : ℤ) ^ dec : ℤ) : ℚ))
          = BigNum.fin ((a : ℚ) / 10 ^ dec) := by
        have hcast : (((10 : ℤ) ^ dec : ℤ) : ℚ) = (10 : ℚ) ^ dec := by push_cast; ring
        rw [hcast]
        simp [BigNum.div, hk, hexact]
      have htp : ConversionsV2.toPrecision (BigNum.fin (a : ℚ)) (-(dec : ℤ)) = none := by
        simp only [ConversionsV2.toPrecision, ConversionsV2.getPrecision, hnat, hparse10,
          hlt, if_true, hdivq]
        exact parseToBigNumber_nonint _ hden
      simp only [ConversionsV2.toNativeWeiFrom, Option.getD_some]
      simp [BigNum.isZero, haq, hr, htp]

/-- Witness for the amended C5: amount `25 * 10 ^ 17` (2.5 tokens of 18
decimals) at rate 4 converts exactly in the older implementation, and
a unit amount is handled non-negatively. -/
theorem C5_toNativeWeiFrom_amended_witness :
    Conversions.toNativeWeiFrom (some (BigNum.fin ((2500000000000000000 : ℤ) : ℚ))) 18
        (some (BigNum.fin 4))
      = BigNum.fin (((2500000000000000000 : ℤ) : ℚ) / 10 ^ 18 * 4 * 10 ^ 18) ∧
    ConversionsV2.toNativeWeiFrom (some (BigNum.fin ((15 : ℤ) : ℚ))) 1 (some (BigNum.fin 1))
      = none := by
  constructor
  · exact C5_toNativeWeiFrom_amended.2.2.2.1 2500000000000000000 4 18 (by norm_num)
  · exact C5_toNativeWeiFrom_amended.2.2.2.2.2 15 1 1 (by norm_num)
      (by decide) (by norm_num)

/-- Powers of ten up to the twentieth stay below the ethers parse
threshold, so the newer `getPrecision` succeeds on them. -/
theorem parseToBigNumber_pow10 (d : ℕ) (hd : d ≤ 20) :
    ConversionsV2.parseToBigNumber (BigNum.fin ((10 : ℚ) ^ d)) = some ((10 : ℤ) ^ d) := by
  have hcast : ((10 : ℚ) ^ d) = (((10 : ℤ) ^ d : ℤ) : ℚ) := by push_cast; ring
  rw [hcast]
  apply parseToBigNumber_int
  have h1 : ((10 : ℤ) ^ d).natAbs = 10 ^ d := by norm_num [Int.natAbs_pow]
  rw [h1]
  calc (10 : ℕ) ^ d ≤ 10 ^ 20 := Nat.pow_le_pow_right (by norm_num) hd
    _ < 10 ^ 21 := by norm_num

/-- The newer `toPrecision` upscaling a non-negative integer is exact
multiplication as long as the result stays below the parse threshold. -/
theorem toPrecisionV2_up (a : ℤ) (d : ℕ) (hd : d ≤ 20) (ha0 : 0 ≤ a)
    (ha : a * 10 ^ d < 10 ^ 21) :
    ConversionsV2.toPrecision (BigNum.fin (a : ℚ)) (d : ℤ) = some (a * 10 ^ d) := by
  have hnd : ¬((d : ℤ) < 0) := by omega
  have hnat : ((d : ℤ)).natAbs = d := Int.natAbs_ofNat d
  have hmul : BigNum.mul (BigNum.fin (a : ℚ)) (BigNum.fin (((10 : ℤ) ^ d : ℤ) : ℚ))
      = BigNum.fin ((a * 10 ^ d : ℤ) : ℚ) := by
    simp only [BigNum.mul]
    congr 1
    push_cast
    ring
  have hnn : 0 ≤ a * 10 ^ d := mul_nonneg ha0 (by positivity)
  have hparse : ConversionsV2.parseToBigNumber (BigNum.fin ((a * 10 ^ d : ℤ) : ℚ))
      = some (a * 10 ^ d) := by
    apply parseToBigNumber_int
    have hcast := Int.natAbs_of_nonneg hnn
    have hlt : (((a * 10 ^ d).natAbs : ℤ)) < (10 : ℤ) ^ 21 := by rw [hcast]; exact ha
    exact_mod_cast hlt
  simp only [ConversionsV2.toPrecision, ConversionsV2.getPrecision, hnat,
    parseToBigNumber_pow10 d hd, hnd, if_false, hmul, hparse]

/-- The newer `toPrecision` downscaling a non-negative integer that is
divisible by the scale is exact integer division. -/
theorem toPrecisionV2_down (a : ℤ) (k : ℕ) (hk1 : 1 ≤ k) (hk : k ≤ 20) (ha0 : 0 ≤ a)
    (hdvd : (10 : ℤ) ^ k ∣ a) (ha : a < 10 ^ 21) :
    ConversionsV2.toPrecision (BigNum.fin (a : ℚ)) (-(k : ℤ)) = some (a / 10 ^ k) := by
  have hlt : -(k : ℤ) < 0 := by omega
  have hnat : (-(k : ℤ)).natAbs = k := by omega
  have hkq : ((10 : ℚ) ^ k) ≠ 0 := by positivity
  have hqcast : ((a / 10 ^ k : ℤ) : ℚ) = (a : ℚ) / 10 ^ k := by
    rw [Rat.intCast_div a ((10 : ℤ) ^ k) hdvd]
    push_cast
    ring
  have hdiv : BigNum.div (BigNum.fin (a : ℚ)) (BigNum.fin (((10 : ℤ) ^ k : ℤ) : ℚ))
      = BigNum.fin ((a / 10 ^ k : ℤ) : ℚ) := by
    have hcast : (((10 : ℤ) ^ k : ℤ) : ℚ) = (10 : ℚ) ^ k := by push_cast; ring
    rw [hcast]
    simp only [BigNum.div]
    rw [if_neg hkq, divRound_int_pow a k hk, hqcast]
  have hparse : ConversionsV2.parseToBigNumber (BigNum.fin ((a / 10 ^ k : ℤ) : ℚ))
      = some (a / 10 ^ k) := by
    apply parseToBigNumber_int
    have h0 : 0 ≤ a / 10 ^ k := Int.ediv_nonneg ha0 (by positivity)
    have hle : a / 10 ^ k ≤ a := Int.ediv_le_self _ ha0
    have hcast := Int.natAbs_of_nonneg h0
    have hlt21 : (((a / 10 ^ k).natAbs : ℤ)) < (10 : ℤ) ^ 21 := by
      rw [hcast]
      exact lt_of_le_of_lt hle ha
    exact_mod_cast hlt21
  simp only [ConversionsV2.toPrecision, ConversionsV2.getPrecision, hnat,
    parseToBigNumber_pow10 k hk, hlt, if_true, hdiv, hparse]

/-- C6: the round-trip law as stated fails on both cited
implementations.  In `src/src/Conversions.ts`, scaling 1 by `-30`
divides by `10 ^ 30`, which bignumber.js rounds to zero at its default
twenty decimal places, and scaling back returns 0 — not within any
sub-unit tolerance of 1.  In `part_000`, already the downscaling leg
throws at value 1, delta `-20` (the fraction 1e-20 is rejected by the
integer-only ethers parser), the upscaling leg throws at delta 21 (the
scale `10 ^ 21` prints in exponential notation), and a value at the
parse threshold `10 ^ 21` throws even at delta 0. -/
theorem C6_roundtrip_counterexample :
    (Conversions.toPrecision (Conversions.toPrecision (BigNum.fin 1) (-30)) 30
        = BigNum.fin 0 ∧ ¬ |(0 : ℚ) - 1| < 1) ∧
    ConversionsV2.toPrecision (BigNum.fin 1) (-20) = none ∧
    ConversionsV2.toPrecision (BigNum.fin 1) 21 = none ∧
    ConversionsV2.toPrecision (BigNum.fin ((10 ^ 21 : ℤ) : ℚ)) 0 = none := by
  refine ⟨⟨?_, by norm_num⟩, ?_, ?_, ?_⟩
  · norm_num [Conversions.toPrecision, Conversions.getPrecision, BigNum.div, BigNum.mul,
      BigNum.divRound, BigNum.roundHalfUp, BigNum.DECIMAL_PLACES]
  · norm_num [ConversionsV2.toPrecision, ConversionsV2.getPrecision,
      ConversionsV2.parseToBigNumber, BigNum.div, BigNum.mul, BigNum.divRound,
      BigNum.roundHalfUp, BigNum.DECIMAL_PLACES]
  · norm_num [ConversionsV2.toPrecision, ConversionsV2.getPrecision,
      ConversionsV2.parseToBigNumber, BigNum.div, BigNum.mul, BigNum.divRound,
      BigNum.roundHalfUp, BigNum.DECIMAL_PLACES]
  · norm_num [ConversionsV2.toPrecision, ConversionsV2.getPrecision,
      ConversionsV2.parseToBigNumber, BigNum.div, BigNum.mul, BigNum.divRound,
      BigNum.roundHalfUp, BigNum.DECIMAL_PLACES]

/-- C6 (amended): for all non-negative values, scaling by `d` and then
by `-d` in the `Conversions.ts` implementation returns the original
value within integer-truncation tolerance (absolute error below one)
whenever `d ≥ -20`, i.e. whenever the downscaling leg does not exceed
the twenty decimal places bignumber.js retains for division.  The
`part_000` implementation coerces every intermediate value to an
integer ethers BigNumber, so its round trip recovers the value — then
exactly — only on integers: for `0 ≤ d ≤ 20` whenever the upscaled
intermediate stays below the `10 ^ 21` parse threshold, and for
`-20 ≤ d ≤ -1` whenever additionally the value is divisible by
`10 ^ |d|`; outside these conditions it throws (see the
counterexample). -/
theorem C6_roundtrip_amended :
    (∀ (v : ℚ) (d : ℤ), 0 ≤ v → -20 ≤ d →
        ∃ r : ℚ,
          Conversions.toPrecision (Conversions.toPrecision (BigNum.fin v) d) (-d)
            = BigNum.fin r ∧ |r - v| < 1) ∧
    (∀ (a : ℤ) (d : ℕ), 0 ≤ a → d ≤ 20 → a * 10 ^ d < 10 ^ 21 →
        (ConversionsV2.toPrecision (BigNum.fin (a : ℚ)) (d : ℤ)).bind
            (fun n => ConversionsV2.toPrecision (BigNum.fin (n : ℚ)) (-(d : ℤ)))
          = some a) ∧
    (∀ (a : ℤ) (k : ℕ), 0 ≤ a → 1 ≤ k → k ≤ 20 → (10 : ℤ) ^ k ∣ a → a < 10 ^ 21 →
        (ConversionsV2.toPrecision (BigNum.fin (a : ℚ)) (-(k : ℤ))).bind
            (fun n => ConversionsV2.toPrecision (BigNum.fin (n : ℚ)) (k : ℤ))
          = some a) := by
  refine ⟨?_, ?_, ?_⟩
  · intro v d hv hd
    rcases lt_trichotomy d 0 with hneg | hzero | hpos
    · -- d < 0: divide first (rounded), multiply back; error ≤ 1/2 when |d| ≤ 20
      have hk : (0 : ℚ) < 10 ^ d.natAbs := by positivity
      have h1 : Conversions.toPrecision (BigNum.fin v) d
          = BigNum.fin (BigNum.divRound v (10 ^ d.natAbs)) := by
        simp [Conversions.toPrecision, Conversions.getPrecision, BigNum.div, hneg, hk.ne']
      have hnd : ¬(-d < 0) := by omega
      have h2 : Conversions.toPrecision
            (BigNum.fin (BigNum.divRound v (10 ^ d.natAbs))) (-d)
          = BigNum.fin (BigNum.divRound v (10 ^ d.natAbs) * 10 ^ d.natAbs) := by
        simp [Conversions.toPrecision, Conversions.getPrecision, BigNum.mul, hnd,
          Int.natAbs_neg]
      refine ⟨BigNum.divRound v (10 ^ d.natAbs) * 10 ^ d.natAbs, by rw [h1, h2], ?_⟩
      have hq : (0 : ℚ) ≤ v / 10 ^ d.natAbs := div_nonneg hv hk.le
      have herr := divRound_error v (10 ^ d.natAbs) hq
      have hsplit : BigNum.divRound v (10 ^ d.natAbs) * 10 ^ d.natAbs - v
          = (BigNum.divRound v (10 ^ d.natAbs) - v / 10 ^ d.natAbs) * 10 ^ d.natAbs := by
        field_simp
      rw [hsplit, abs_mul, abs_of_pos hk]
      have hk20 : d.natAbs ≤ 20 := by omega
      have hpow : (10 : ℚ) ^ d.natAbs ≤ 10 ^ 20 :=
        pow_le_pow_right₀ (by norm_num) hk20
      calc |BigNum.divRound v (10 ^ d.natAbs) - v / 10 ^ d.natAbs| * 10 ^ d.natAbs
          ≤ 1 / 2 / 10 ^ 20 * 10 ^ 20 :=
            mul_le_mul herr hpow hk.le (by positivity)
        _ < 1 := by norm_num
    · -- d = 0: multiply by 10^0 twice, exactly the identity
      subst hzero
      refine ⟨v, ?_, by simp⟩
      simp [Conversions.toPrecision, Conversions.getPrecision, BigNum.mul]
    · -- d > 0: multiply exactly, divide back with error ≤ (1/2) / 10^20
      have hk : (0 : ℚ) < 10 ^ d.natAbs := by positivity
      have hnd : ¬(d < 0) := by omega
      have h1 : Conversions.toPrecision (BigNum.fin v) d
          = BigNum.fin (v * 10 ^ d.natAbs) := by
        simp [Conversions.toPrecision, Conversions.getPrecision, BigNum.mul, hnd]
      have hnd2 : -d < 0 := by omega
      have h2 : Conversions.toPrecision (BigNum.fin (v * 10 ^ d.natAbs)) (-d)
          = BigNum.fin (BigNum.divRound (v * 10 ^ d.natAbs) (10 ^ d.natAbs)) := by
        simp [Conversions.toPrecision, Conversions.getPrecision, BigNum.div, hnd2,
          Int.natAbs_neg, hk.ne']
      refine ⟨BigNum.divRound (v * 10 ^ d.natAbs) (10 ^ d.natAbs), by rw [h1, h2], ?_⟩
      have ha : v * 10 ^ d.natAbs / 10 ^ d.natAbs = v :=
        mul_div_cancel_right₀ v hk.ne'
      have herr := divRound_error (v * 10 ^ d.natAbs) (10 ^ d.natAbs) (by rw [ha]; exact hv)
      rw [ha] at herr
      calc |BigNum.divRound (v * 10 ^ d.natAbs) (10 ^ d.natAbs) - v|
          ≤ 1 / 2 / 10 ^ 20 := herr
        _ < 1 := by norm_num
  · intro a d ha0 hd ha
    rw [toPrecisionV2_up a d hd ha0 ha]
    show ConversionsV2.toPrecision (BigNum.fin ((a * 10 ^ d : ℤ) : ℚ)) (-(d : ℤ)) = some a
    rcases Nat.eq_zero_or_pos d with h0 | hpos
    · subst h0
      have h2 := toPrecisionV2_up a 0 (by norm_num) ha0 (by simpa using ha)
      simpa using h2
    · have hdvd : (10 : ℤ) ^ d ∣ a * 10 ^ d := dvd_mul_left _ _
      have h3 := toPrecisionV2_down (a * 10 ^ d) d hpos hd
        (mul_nonneg ha0 (by positivity)) hdvd ha
      rw [show a * 10 ^ d / 10 ^ d = a from Int.mul_ediv_cancel a (by positivity)] at h3
      exact h3
  · intro a k ha0 hk1 hk hdvd ha
    rw [toPrecisionV2_down a k hk1 hk ha0 hdvd ha]
    show ConversionsV2.toPrecision (BigNum.fin ((a / 10 ^ k : ℤ) : ℚ)) ((k : ℕ) : ℤ)
      = some a
    have h0 : 0 ≤ a / 10 ^ k := Int.ediv_nonneg ha0 (by positivity)
    have hmulback : a / 10 ^ k * 10 ^ k = a := Int.ediv_mul_cancel hdvd
    have h2 := toPrecisionV2_up (a / 10 ^ k) k hk h0 (by rw [hmulback]; exact ha)
    rw [h2, hmulback]

/-- Witness for the amended C6: the Conversions.ts round trip at value
1, delta `-20` (the extreme still-covered delta); the part_000 round
trip at value 5, delta 2, and at value 300, delta `-2` (divisible). -/
theorem C6_roundtrip_amended_witness :
    (∃ r : ℚ,
        Conversions.toPrecision (Conversions.toPrecision (BigNum.fin 1) (-20)) 20
          = BigNum.fin r ∧ |r - 1| < 1) ∧
    (ConversionsV2.toPrecision (BigNum.fin ((5 : ℤ) : ℚ)) ((2 : ℕ) : ℤ)).bind
        (fun n => ConversionsV2.toPrecision (BigNum.fin (n : ℚ)) (-((2 : ℕ) : ℤ)))
      = some 5 ∧
    (ConversionsV2.toPrecision (BigNum.fin ((300 : ℤ) : ℚ)) (-((2 : ℕ) : ℤ))).bind
        (fun n => ConversionsV2.toPrecision (BigNum.fin (n : ℚ)) ((2 : ℕ) : ℤ))
      = some 300 :=
  ⟨C6_roundtrip_amended.1 1 (-20) (by norm_num) (by norm_num),
   C6_roundtrip_amended.2.1 5 2 (by norm_num) (by norm_num) (by norm_num),
   C6_roundtrip_amended.2.2 300 2 (by norm_num) (by norm_num) (by norm_num)
     (by decide) (by norm_num)⟩

end RifRelay
